import Mathlib

/-!
Verification of the Level/Obstacle/collision core of a tile-based maze game.

The definitions below are a shallow embedding of `Level.js` (the `Level`
class and its inner `MovingObstacle` class) and of the level-loading code in
`sketch.js`.  JavaScript numbers are modelled as rationals (`ℚ`), grid cells
as an inductive `Cell` type (an integer tile code or the string marker "M"),
and the row-major construction scan of the `Level` constructor as an explicit
recursion over the list of (row, col) index pairs, threading the build state
(partially normalized grid, start cell, obstacle list) exactly as the
JavaScript loop mutates `this`.
-/

namespace Maze

/-- A grid cell value: an integer tile code (0 floor, 1 wall, 2 start,
3 goal) or the string marker "M" for a moving-obstacle spawn. -/
inductive Cell where
  | num (n : Int)
  | M
deriving DecidableEq, Repr

/-- Axis-aligned rectangle in pixel space, as produced by
`MovingObstacle.bounds` and consumed by `checkObstacleCollision`. -/
structure Rect where
  left : ℚ
  top : ℚ
  right : ℚ
  bottom : ℚ
deriving DecidableEq, Repr

/-- State of one `MovingObstacle`, mirroring all fields its constructor sets. -/
structure MovingObstacle where
  col : Nat
  row : Nat
  minRow : Nat
  maxRow : Nat
  ts : ℚ
  speed : ℚ
  y : ℚ
  x : ℚ
  dir : Int
  w : ℚ
  h : ℚ
  minY : ℚ
  maxY : ℚ
deriving DecidableEq, Repr

/-- The `MovingObstacle` constructor (`constructor(col, row, minRow, maxRow,
ts, speed = 1.8)` in the source; 0.8 is written 4/5 and 1.8 is 9/5). -/
def MovingObstacle.make (col row minRow maxRow : Nat) (ts speed : ℚ) :
    MovingObstacle where
  col := col
  row := row
  minRow := minRow
  maxRow := maxRow
  ts := ts
  speed := speed
  y := row * ts + ts / 2
  x := col * ts + ts / 2
  dir := 1
  w := ts * (4 / 5)
  h := ts * (4 / 5)
  minY := minRow * ts + ts / 2
  maxY := maxRow * ts + ts / 2

/-- `MovingObstacle.update()`: advance the pixel center by `speed * dir`,
then reverse at the bounds, clamping. -/
def MovingObstacle.update (o : MovingObstacle) : MovingObstacle :=
  let y1 := o.y + o.speed * (o.dir : ℚ)
  if y1 ≥ o.maxY then { o with y := o.maxY, dir := -1 }
  else if y1 ≤ o.minY then { o with y := o.minY, dir := 1 }
  else { o with y := y1 }

/-- `n` consecutive `update()` ticks. -/
def MovingObstacle.updateN : Nat → MovingObstacle → MovingObstacle
  | 0, o => o
  | n + 1, o => (MovingObstacle.updateN n o).update

/-- `MovingObstacle.reset()`: restore the pixel position derived from the
original spawn row and set direction to +1 (down). -/
def MovingObstacle.reset (o : MovingObstacle) : MovingObstacle :=
  { o with y := o.row * o.ts + o.ts / 2, dir := 1 }

/-- `MovingObstacle.bounds()`: the current axis-aligned rectangle. -/
def MovingObstacle.bounds (o : MovingObstacle) : Rect where
  left := o.x - o.w / 2
  top := o.y - o.h / 2
  right := o.x + o.w / 2
  bottom := o.y + o.h / 2

/-- Read grid cell `(r, c)`; JavaScript reads like `this.grid[r][c]` are only
performed under in-bounds guards, so the default value is never observed
there. -/
def cellAt (grid : List (List Cell)) (r c : Nat) : Cell :=
  (grid.getD r []).getD c (Cell.num 0)

/-- Write grid cell `(r, c)` (`this.grid[r][c] = v`). -/
def setCell (grid : List (List Cell)) (r c : Nat) (v : Cell) :
    List (List Cell) :=
  grid.set r ((grid.getD r []).set c v)

/-- The upward scan of the constructor:
`while (minRow - 1 >= 0 && this.grid[minRow - 1][c] !== 1) minRow--`. -/
def scanUp (grid : List (List Cell)) (c : Nat) : Nat → Nat
  | 0 => 0
  | m + 1 => if cellAt grid m c ≠ Cell.num 1 then scanUp grid c m else m + 1

/-- Fuelled version of the downward scan; the fuel is the number of rows
still below the current one. -/
def scanDownAux (grid : List (List Cell)) (c : Nat) : Nat → Nat → Nat
  | 0, m => m
  | fuel + 1, m =>
    if cellAt grid (m + 1) c ≠ Cell.num 1 then scanDownAux grid c fuel (m + 1)
    else m

/-- The downward scan of the constructor:
`while (maxRow + 1 < this.rows() && this.grid[maxRow + 1][c] !== 1) maxRow++`. -/
def scanDown (grid : List (List Cell)) (rows c m : Nat) : Nat :=
  scanDownAux grid c (rows - (m + 1)) m

/-- Mutable state threaded through the constructor's row-major scan:
the (partially normalized) grid, the `start` field and the obstacle list. -/
structure BuildState where
  grid : List (List Cell)
  start : Option (Nat × Nat)
  obstacles : List MovingObstacle
deriving Repr

/-- One iteration of the constructor's inner loop body at cell `(r, c)`:
record (and normalize) a start tile `2`, and turn an `"M"` marker into a
`MovingObstacle` with scanned travel bounds, normalizing the cell to floor. -/
def processCell (ts : ℚ) (rows : Nat) (st : BuildState) (r c : Nat) :
    BuildState :=
  let v := cellAt st.grid r c
  let st1 :=
    if v = Cell.num 2 then
      { st with start := some (r, c), grid := setCell st.grid r c (Cell.num 0) }
    else st
  if v = Cell.M then
    let minRow := scanUp st1.grid c r
    let maxRow := scanDown st1.grid rows c r
    { st1 with
      obstacles :=
        st1.obstacles ++ [MovingObstacle.make c r minRow maxRow ts (9 / 5)],
      grid := setCell st1.grid r c (Cell.num 0) }
  else st1

/-- The constructor's two nested loops, expressed as a recursion over the
row-major list of index pairs. -/
def buildLoop (ts : ℚ) (rows : Nat) :
    List (Nat × Nat) → BuildState → BuildState
  | [], st => st
  | rc :: rest, st => buildLoop ts rows rest (processCell ts rows st rc.1 rc.2)

/-- The row-major list of all index pairs `(r, c)` with `r < rows`,
`c < cols`. -/
def cellIndices (rows cols : Nat) : List (Nat × Nat) :=
  (List.range rows).flatMap (fun r => (List.range cols).map (fun c => (r, c)))

/-- A `Level`: normalized grid, tile size, owned obstacles, start cell. -/
structure Level where
  grid : List (List Cell)
  ts : ℚ
  obstacles : List MovingObstacle
  start : Option (Nat × Nat)
deriving DecidableEq, Repr

/-- The `Level` constructor: copy the grid, then scan it row-major,
normalizing start tiles and `"M"` markers and emitting obstacles. -/
def Level.make (grid : List (List Cell)) (ts : ℚ) : Level :=
  let rows := grid.length
  let cols := (grid.headD []).length
  let st := buildLoop ts rows (cellIndices rows cols) ⟨grid, none, []⟩
  ⟨st.grid, ts, st.obstacles, st.start⟩

def Level.rows (l : Level) : Nat := l.grid.length

def Level.cols (l : Level) : Nat := (l.grid.headD []).length

def Level.pixelWidth (l : Level) : ℚ := l.cols * l.ts

def Level.pixelHeight (l : Level) : ℚ := l.rows * l.ts

def Level.inBounds (l : Level) (r c : Int) : Bool :=
  decide (0 ≤ r) && decide (0 ≤ c) && decide (r < l.rows) && decide (c < l.cols)

def Level.tileAt (l : Level) (r c : Nat) : Cell := cellAt l.grid r c

def Level.isWall (l : Level) (r c : Nat) : Bool :=
  decide (l.tileAt r c = Cell.num 1)

def Level.isGoal (l : Level) (r c : Nat) : Bool :=
  decide (l.tileAt r c = Cell.num 3)

/-- `updateObstacles()`: advance every owned obstacle by one tick. -/
def Level.updateObstacles (l : Level) : Level :=
  { l with obstacles := l.obstacles.map MovingObstacle.update }

/-- `n` consecutive `updateObstacles()` calls. -/
def Level.updateObstaclesN : Nat → Level → Level
  | 0, l => l
  | n + 1, l => (Level.updateObstaclesN n l).updateObstacles

/-- `resetObstacles()`: reset every owned obstacle. -/
def Level.resetObstacles (l : Level) : Level :=
  { l with obstacles := l.obstacles.map MovingObstacle.reset }

/-- The separating-axis rejection test of `checkObstacleCollision`
(the disjunction inside the negation). -/
def rectDisjointTest (p b : Rect) : Bool :=
  decide (p.right < b.left) || decide (p.left > b.right) ||
    decide (p.bottom < b.top) || decide (p.top > b.bottom)

/-- `checkObstacleCollision(playerRect)`: true iff some owned obstacle's
bounds are not separated from the player rectangle. -/
def Level.checkObstacleCollision (l : Level) (p : Rect) : Bool :=
  l.obstacles.any (fun o => !(rectDisjointTest p o.bounds))

/-- `findStart()`: re-scan the grid row-major for the first cell equal to 2. -/
def Level.findStart (l : Level) : Option (Nat × Nat) :=
  (cellIndices l.rows l.cols).find?
    (fun rc => decide (cellAt l.grid rc.1 rc.2 = Cell.num 2))

/-! ### Level loading (`sketch.js`) -/

/-- The tile size constant `TS` of `sketch.js`. -/
def TS : ℚ := 32

/-- One raw entry of `levels.json`: a bare grid array, an object carrying a
(truthy) `grid` field, or anything else (malformed). -/
inductive LevelEntry where
  | arr (grid : List (List Cell))
  | obj (grid : List (List Cell))
  | malformed

/-- The degenerate 2×2 all-wall fallback grid of `setup()`. -/
def fallbackGrid : List (List Cell) :=
  [[Cell.num 1, Cell.num 1], [Cell.num 1, Cell.num 1]]

/-- The per-entry branch of `setup()`: grids are passed to the `Level`
constructor, malformed entries get the fallback grid. -/
def loadEntry : LevelEntry → Level
  | .arr g => Level.make g TS
  | .obj g => Level.make g TS
  | .malformed => Level.make fallbackGrid TS

/-! ### Specification-side definitions

These are written from the spec's words, to be compared with the
definitions above, which are translated from the source. -/

/-- Overlap of two axis-aligned rectangles as worded by the spec:
no overlap iff one rectangle is entirely to one side of the other on
either axis. -/
def overlapSpec (p b : Rect) : Prop :=
  ¬ (p.right < b.left ∨ b.right < p.left) ∧
    ¬ (p.bottom < b.top ∨ b.bottom < p.top)

/-- The location of the first cell holding tile code 2 in row-major scan
order over the raw input grid (the spec's "first one found"). -/
def firstStart (g : List (List Cell)) : Option (Nat × Nat) :=
  (cellIndices g.length (g.headD []).length).find?
    (fun rc => decide (cellAt g rc.1 rc.2 = Cell.num 2))

/-- The location of the last cell holding tile code 2 in row-major scan
order over the raw input grid. -/
def lastStart (g : List (List Cell)) : Option (Nat × Nat) :=
  (cellIndices g.length (g.headD []).length).foldl
    (fun acc rc => if cellAt g rc.1 rc.2 = Cell.num 2 then some rc else acc)
    none

/-- How many cells of the raw input grid hold tile code 2 (`Start`). -/
def startCount (g : List (List Cell)) : Nat :=
  ((cellIndices g.length (g.headD []).length).filter
    (fun rc => decide (cellAt g rc.1 rc.2 = Cell.num 2))).length

/-- The per-cell effect of the constructor's normalization: tile code 2 and
the marker "M" become floor, everything else is untouched.  Used to state
what the construction scan does to the grid. -/
def normalizeCell (v : Cell) : Cell :=
  if v = Cell.num 2 ∨ v = Cell.M then Cell.num 0 else v

/-- The 5×5 scenario grid of the spec, with an "M" marker at (2,2). -/
def gridC6 : List (List Cell) :=
  [[Cell.num 1, Cell.num 1, Cell.num 1, Cell.num 1, Cell.num 1],
   [Cell.num 1, Cell.num 0, Cell.num 0, Cell.num 0, Cell.num 1],
   [Cell.num 1, Cell.num 0, Cell.M, Cell.num 0, Cell.num 1],
   [Cell.num 1, Cell.num 0, Cell.num 0, Cell.num 0, Cell.num 1],
   [Cell.num 1, Cell.num 1, Cell.num 1, Cell.num 1, Cell.num 1]]

/-! ### Grid access lemmas -/

theorem cellAt_of_row_oob (g : List (List Cell)) (r c : Nat)
    (h : g.length ≤ r) : cellAt g r c = Cell.num 0 := by
  unfold cellAt
  rw [List.getD_eq_default _ _ h]
  rfl

theorem cellAt_of_col_oob (g : List (List Cell)) (r c : Nat)
    (h : (g.getD r []).length ≤ c) : cellAt g r c = Cell.num 0 := by
  unfold cellAt
  rw [List.getD_eq_default _ _ h]

theorem cellAt_ne_default_inBounds (g : List (List Cell)) (r c : Nat)
    (h : cellAt g r c ≠ Cell.num 0) :
    r < g.length ∧ c < (g.getD r []).length := by
  constructor
  · by_contra hh
    push_neg at hh
    exact h (cellAt_of_row_oob g r c hh)
  · by_contra hh
    push_neg at hh
    exact h (cellAt_of_col_oob g r c hh)

theorem cellAt_setCell_ne (g : List (List Cell)) (r1 c1 r2 c2 : Nat) (v : Cell)
    (h : ¬(r2 = r1 ∧ c2 = c1)) :
    cellAt (setCell g r2 c2 v) r1 c1 = cellAt g r1 c1 := by
  by_cases hr : r2 = r1
  · subst hr
    have hc : c2 ≠ c1 := fun hcc => h ⟨rfl, hcc⟩
    by_cases hlen : r2 < g.length
    · simp only [cellAt, setCell, List.getD_eq_getElem?_getD, List.getElem?_set,
        eq_self_iff_true, if_true, hlen, Option.getD_some]
      simp [hc]
    · simp only [cellAt, setCell, List.getD_eq_getElem?_getD, List.getElem?_set,
        eq_self_iff_true, if_true, hlen, if_false, Option.getD_none]
      rw [List.getElem?_eq_none (show g.length ≤ r2 by omega)]
      simp
  · simp only [cellAt, setCell, List.getD_eq_getElem?_getD,
      List.getElem?_set, if_neg hr]

theorem cellAt_setCell_self (g : List (List Cell)) (r c : Nat) (v : Cell)
    (hr : r < g.length) (hc : c < (g.getD r []).length) :
    cellAt (setCell g r c v) r c = v := by
  simp only [cellAt, setCell, List.getD_eq_getElem?_getD]
  rw [List.getElem?_set_self hr, Option.getD_some,
    List.getElem?_set_self (by rw [← List.getD_eq_getElem?_getD]; exact hc),
    Option.getD_some]

theorem setCell_length (g : List (List Cell)) (r c : Nat) (v : Cell) :
    (setCell g r c v).length = g.length := List.length_set ..

theorem setCell_row_length (g : List (List Cell)) (r c : Nat) (v : Cell)
    (r' : Nat) :
    ((setCell g r c v).getD r' []).length = (g.getD r' []).length := by
  by_cases hr : r = r'
  · subst hr
    by_cases hlen : r < g.length
    · simp only [setCell, List.getD_eq_getElem?_getD, List.getElem?_set,
        eq_self_iff_true, if_true, hlen, Option.getD_some, List.length_set]
    · simp only [setCell, List.getD_eq_getElem?_getD, List.getElem?_set,
        eq_self_iff_true, if_true, hlen, if_false, Option.getD_none]
      rw [List.getElem?_eq_none (show g.length ≤ r by omega)]
      simp
  · simp only [setCell, List.getD_eq_getElem?_getD, List.getElem?_set,
      if_neg hr]

/-! ### Effect of one construction step on the build state -/

theorem processCell_grid (ts : ℚ) (rows : Nat) (st : BuildState) (r c : Nat) :
    (processCell ts rows st r c).grid =
      if cellAt st.grid r c = Cell.num 2 ∨ cellAt st.grid r c = Cell.M then
        setCell st.grid r c (Cell.num 0)
      else st.grid := by
  by_cases h2 : cellAt st.grid r c = Cell.num 2
  · simp [processCell, h2]
  · by_cases hM : cellAt st.grid r c = Cell.M
    · simp [processCell, h2, hM]
    · simp [processCell, h2, hM]

theorem processCell_start (ts : ℚ) (rows : Nat) (st : BuildState) (r c : Nat) :
    (processCell ts rows st r c).start =
      if cellAt st.grid r c = Cell.num 2 then some (r, c) else st.start := by
  by_cases h2 : cellAt st.grid r c = Cell.num 2
  · simp [processCell, h2]
  · by_cases hM : cellAt st.grid r c = Cell.M
    · simp [processCell, h2, hM]
    · simp [processCell, h2, hM]

theorem processCell_cellAt_self (ts : ℚ) (rows : Nat) (st : BuildState)
    (r c : Nat) :
    cellAt (processCell ts rows st r c).grid r c =
      normalizeCell (cellAt st.grid r c) := by
  rw [processCell_grid]
  by_cases h : cellAt st.grid r c = Cell.num 2 ∨ cellAt st.grid r c = Cell.M
  · rw [if_pos h]
    have hne : cellAt st.grid r c ≠ Cell.num 0 := by
      rcases h with h | h <;> simp [h]
    obtain ⟨hr, hc⟩ := cellAt_ne_default_inBounds st.grid r c hne
    rw [cellAt_setCell_self st.grid r c _ hr hc]
    simp [normalizeCell, h]
  · rw [if_neg h]
    simp [normalizeCell, h]

theorem processCell_cellAt_ne (ts : ℚ) (rows : Nat) (st : BuildState)
    (r c r' c' : Nat) (h : ¬(r = r' ∧ c = c')) :
    cellAt (processCell ts rows st r c).grid r' c' = cellAt st.grid r' c' := by
  rw [processCell_grid]
  split
  · exact cellAt_setCell_ne st.grid r' c' r c _ h
  · rfl

theorem normalizeCell_idem (v : Cell) :
    normalizeCell (normalizeCell v) = normalizeCell v := by
  unfold normalizeCell
  split <;> simp_all

theorem normalizeCell_ne_start (v : Cell) : normalizeCell v ≠ Cell.num 2 := by
  unfold normalizeCell
  split <;> simp_all

theorem normalizeCell_ne_marker (v : Cell) : normalizeCell v ≠ Cell.M := by
  unfold normalizeCell
  split <;> simp_all

/-! ### The whole construction scan -/

theorem buildLoop_cellAt_of_not_mem (ts : ℚ) (rows : Nat)
    (L : List (Nat × Nat)) (st : BuildState) (r c : Nat) (h : (r, c) ∉ L) :
    cellAt (buildLoop ts rows L st).grid r c = cellAt st.grid r c := by
  induction L generalizing st with
  | nil => rfl
  | cons rc rest ih =>
    rw [buildLoop, ih _ (fun hm => h (List.mem_cons_of_mem rc hm))]
    refine processCell_cellAt_ne ts rows st rc.1 rc.2 r c fun ⟨h1, h2⟩ => ?_
    exact h (by simp [← h1, ← h2, List.mem_cons])

theorem buildLoop_cellAt_of_mem (ts : ℚ) (rows : Nat)
    (L : List (Nat × Nat)) (st : BuildState) (r c : Nat) (h : (r, c) ∈ L) :
    cellAt (buildLoop ts rows L st).grid r c =
      normalizeCell (cellAt st.grid r c) := by
  induction L generalizing st with
  | nil => cases h
  | cons rc rest ih =>
    rw [buildLoop]
    rcases List.mem_cons.mp h with heq | hmem
    · by_cases hrest : (r, c) ∈ rest
      · rw [ih _ hrest, ← heq, processCell_cellAt_self, normalizeCell_idem]
      · rw [buildLoop_cellAt_of_not_mem ts rows rest _ r c hrest, ← heq,
          processCell_cellAt_self]
    · by_cases heq2 : rc = (r, c)
      · subst heq2
        rw [ih _ hmem, processCell_cellAt_self, normalizeCell_idem]
      · rw [ih _ hmem]
        congr 1
        refine processCell_cellAt_ne ts rows st rc.1 rc.2 r c fun ⟨h1, h2⟩ => ?_
        exact heq2 (by rw [← h1, ← h2])

theorem mem_cellIndices (rows cols r c : Nat) :
    (r, c) ∈ cellIndices rows cols ↔ r < rows ∧ c < cols := by
  simp [cellIndices, List.mem_flatMap, List.mem_map, List.mem_range]

theorem cellIndices_nodup (rows cols : Nat) : (cellIndices rows cols).Nodup := by
  unfold cellIndices
  rw [List.nodup_flatMap]
  constructor
  · intro r _
    exact (List.nodup_range cols).map fun a b hab => by
      simpa using congrArg Prod.snd hab
  · refine List.Pairwise.imp ?_ (List.nodup_range rows)
    intro a b hab x hxa hxb
    simp only [Function.onFun, List.mem_map] at hxa hxb
    obtain ⟨ca, _, rfl⟩ := hxa
    obtain ⟨cb, _, hcb⟩ := hxb
    have hfst : b = a := congrArg Prod.fst hcb
    exact hab hfst.symm

/-! ### The construction preserves the grid's shape -/

theorem processCell_grid_length (ts : ℚ) (rows : Nat) (st : BuildState)
    (r c : Nat) : (processCell ts rows st r c).grid.length = st.grid.length := by
  rw [processCell_grid]
  split
  · exact setCell_length ..
  · rfl

theorem processCell_row_length (ts : ℚ) (rows : Nat) (st : BuildState)
    (r c r' : Nat) :
    ((processCell ts rows st r c).grid.getD r' []).length =
      (st.grid.getD r' []).length := by
  rw [processCell_grid]
  split
  · exact setCell_row_length ..
  · rfl

theorem buildLoop_grid_length (ts : ℚ) (rows : Nat) (L : List (Nat × Nat))
    (st : BuildState) :
    (buildLoop ts rows L st).grid.length = st.grid.length := by
  induction L generalizing st with
  | nil => rfl
  | cons rc rest ih => rw [buildLoop, ih, processCell_grid_length]

theorem buildLoop_row_length (ts : ℚ) (rows : Nat) (L : List (Nat × Nat))
    (st : BuildState) (r' : Nat) :
    ((buildLoop ts rows L st).grid.getD r' []).length =
      (st.grid.getD r' []).length := by
  induction L generalizing st with
  | nil => rfl
  | cons rc rest ih => rw [buildLoop, ih, processCell_row_length]

theorem headD_eq_getD_zero (l : List (List Cell)) : l.headD [] = l.getD 0 [] := by
  cases l <;> rfl

theorem rows_make (g : List (List Cell)) (ts : ℚ) :
    (Level.make g ts).rows = g.length := by
  unfold Level.make Level.rows
  exact buildLoop_grid_length ..

theorem cols_make (g : List (List Cell)) (ts : ℚ) :
    (Level.make g ts).cols = (g.headD []).length := by
  unfold Level.make Level.cols
  rw [headD_eq_getD_zero, headD_eq_getD_zero]
  exact buildLoop_row_length ..

theorem make_tileAt (g : List (List Cell)) (ts : ℚ) (r c : Nat)
    (hr : r < g.length) (hc : c < (g.headD []).length) :
    (Level.make g ts).tileAt r c = normalizeCell (cellAt g r c) := by
  unfold Level.make Level.tileAt
  exact buildLoop_cellAt_of_mem ts g.length _ _ r c
    ((mem_cellIndices ..).mpr ⟨hr, hc⟩)

theorem make_tileAt_oob (g : List (List Cell)) (ts : ℚ) (r c : Nat)
    (h : ¬(r < g.length ∧ c < (g.headD []).length)) :
    (Level.make g ts).tileAt r c = cellAt g r c := by
  unfold Level.make Level.tileAt
  exact buildLoop_cellAt_of_not_mem ts g.length _ _ r c
    (fun hm => h ((mem_cellIndices ..).mp hm))

/-! ### The start field of a constructed level -/

theorem buildLoop_start (ts : ℚ) (rows : Nat) (L : List (Nat × Nat))
    (st : BuildState) (g : List (List Cell)) (hnd : L.Nodup)
    (hagree : ∀ rc ∈ L, cellAt st.grid rc.1 rc.2 = cellAt g rc.1 rc.2) :
    (buildLoop ts rows L st).start =
      L.foldl
        (fun acc rc =>
          if cellAt g rc.1 rc.2 = Cell.num 2 then some rc else acc)
        st.start := by
  induction L generalizing st with
  | nil => rfl
  | cons rc rest ih =>
    rw [buildLoop, List.foldl_cons]
    have hhead := hagree rc (List.mem_cons_self ..)
    have hnd' := (List.nodup_cons.mp hnd).2
    have hni : rc ∉ rest := (List.nodup_cons.mp hnd).1
    rw [ih _ hnd' ?_]
    · congr 1
      rw [processCell_start, hhead]
    · intro rc' hrc'
      rw [processCell_cellAt_ne ts rows st rc.1 rc.2 rc'.1 rc'.2 ?_]
      · exact hagree rc' (List.mem_cons_of_mem rc hrc')
      · rintro ⟨h1, h2⟩
        apply hni
        have : rc = rc' := Prod.ext h1 h2
        rwa [this]

theorem make_start (g : List (List Cell)) (ts : ℚ) :
    (Level.make g ts).start = lastStart g := by
  unfold Level.make lastStart
  exact buildLoop_start ts g.length _ _ g (cellIndices_nodup ..)
    (fun _ _ => rfl)

/-! ### Obstacle motion -/

theorem update_minY (o : MovingObstacle) : o.update.minY = o.minY := by
  simp only [MovingObstacle.update]
  split
  · rfl
  · split <;> rfl

theorem update_maxY (o : MovingObstacle) : o.update.maxY = o.maxY := by
  simp only [MovingObstacle.update]
  split
  · rfl
  · split <;> rfl

theorem updateN_minY (n : Nat) (o : MovingObstacle) :
    (MovingObstacle.updateN n o).minY = o.minY := by
  induction n with
  | zero => rfl
  | succ n ih => rw [MovingObstacle.updateN, update_minY, ih]

theorem updateN_maxY (n : Nat) (o : MovingObstacle) :
    (MovingObstacle.updateN n o).maxY = o.maxY := by
  induction n with
  | zero => rfl
  | succ n ih => rw [MovingObstacle.updateN, update_maxY, ih]

theorem update_y_mem (o : MovingObstacle) (h : o.minY ≤ o.maxY) :
    o.minY ≤ o.update.y ∧ o.update.y ≤ o.maxY := by
  simp only [MovingObstacle.update]
  split
  · exact ⟨h, le_refl _⟩
  · split
    · exact ⟨le_refl _, h⟩
    · rename_i h1 h2
      exact ⟨le_of_lt (lt_of_not_le h2), le_of_lt (lt_of_not_le h1)⟩

theorem reset_update (o : MovingObstacle) : o.update.reset = o.reset := by
  simp only [MovingObstacle.update]
  split
  · rfl
  · split <;> rfl

theorem reset_updateN (n : Nat) (o : MovingObstacle) :
    (MovingObstacle.updateN n o).reset = o.reset := by
  induction n with
  | zero => rfl
  | succ n ih => rw [MovingObstacle.updateN, reset_update, ih]

theorem reset_make (col row minRow maxRow : Nat) (ts speed : ℚ) :
    (MovingObstacle.make col row minRow maxRow ts speed).reset =
      MovingObstacle.make col row minRow maxRow ts speed := rfl

/-! ### Obstacles emitted by the construction are in spawn state -/

theorem processCell_obstacles (ts : ℚ) (rows : Nat) (st : BuildState)
    (r c : Nat) :
    (processCell ts rows st r c).obstacles = st.obstacles ∨
    ∃ mn mx, (processCell ts rows st r c).obstacles =
      st.obstacles ++ [MovingObstacle.make c r mn mx ts (9 / 5)] := by
  by_cases hM : cellAt st.grid r c = Cell.M
  · right
    exact ⟨scanUp st.grid c r, scanDown st.grid rows c r, by simp [processCell, hM]⟩
  · left
    by_cases h2 : cellAt st.grid r c = Cell.num 2 <;> simp [processCell, hM, h2]

theorem processCell_obstacles_reset (ts : ℚ) (rows : Nat) (st : BuildState)
    (r c : Nat) (h : ∀ o ∈ st.obstacles, o.reset = o) :
    ∀ o ∈ (processCell ts rows st r c).obstacles, o.reset = o := by
  intro o ho
  rcases processCell_obstacles ts rows st r c with hobs | ⟨mn, mx, hobs⟩
  · rw [hobs] at ho
    exact h o ho
  · rw [hobs] at ho
    rcases List.mem_append.mp ho with ho | ho
    · exact h o ho
    · rw [List.mem_singleton.mp ho]
      exact reset_make ..

theorem buildLoop_obstacles_reset (ts : ℚ) (rows : Nat) (L : List (Nat × Nat))
    (st : BuildState) (h : ∀ o ∈ st.obstacles, o.reset = o) :
    ∀ o ∈ (buildLoop ts rows L st).obstacles, o.reset = o := by
  induction L generalizing st with
  | nil => exact h
  | cons rc rest ih =>
    exact ih _ (processCell_obstacles_reset ts rows st rc.1 rc.2 h)

theorem make_obstacles_reset (g : List (List Cell)) (ts : ℚ) :
    ∀ o ∈ (Level.make g ts).obstacles, o.reset = o := by
  unfold Level.make
  exact buildLoop_obstacles_reset _ _ _ _ (fun o ho => absurd ho
    (List.not_mem_nil o))

/-! ### Level-layer obstacle lifecycle -/

theorem Level.ext' (l1 l2 : Level) (hg : l1.grid = l2.grid)
    (ht : l1.ts = l2.ts) (ho : l1.obstacles = l2.obstacles)
    (hs : l1.start = l2.start) : l1 = l2 := by
  cases l1
  cases l2
  cases hg
  cases ht
  cases ho
  cases hs
  rfl

theorem updateObstaclesN_grid (n : Nat) (l : Level) :
    (Level.updateObstaclesN n l).grid = l.grid := by
  induction n with
  | zero => rfl
  | succ n ih => rw [Level.updateObstaclesN, Level.updateObstacles, ih]

theorem updateObstaclesN_ts (n : Nat) (l : Level) :
    (Level.updateObstaclesN n l).ts = l.ts := by
  induction n with
  | zero => rfl
  | succ n ih => rw [Level.updateObstaclesN, Level.updateObstacles, ih]

theorem updateObstaclesN_start (n : Nat) (l : Level) :
    (Level.updateObstaclesN n l).start = l.start := by
  induction n with
  | zero => rfl
  | succ n ih => rw [Level.updateObstaclesN, Level.updateObstacles, ih]

theorem updateObstaclesN_obstacles (n : Nat) (l : Level) :
    (Level.updateObstaclesN n l).obstacles =
      l.obstacles.map (MovingObstacle.updateN n) := by
  induction n with
  | zero =>
    rw [Level.updateObstaclesN]
    have h0 : List.map (MovingObstacle.updateN 0) l.obstacles =
        List.map id l.obstacles :=
      List.map_congr_left fun o _ => rfl
    rw [h0, List.map_id]
  | succ n ih =>
    rw [Level.updateObstaclesN, Level.updateObstacles, ih, List.map_map]
    exact List.map_congr_left fun o _ => rfl

theorem resetObstacles_updateObstaclesN_make (g : List (List Cell)) (ts : ℚ)
    (n : Nat) :
    ((Level.make g ts).updateObstaclesN n).resetObstacles = Level.make g ts := by
  apply Level.ext'
  · rw [Level.resetObstacles]
    exact updateObstaclesN_grid ..
  · rw [Level.resetObstacles]
    exact updateObstaclesN_ts ..
  · show ((Level.make g ts).updateObstaclesN n).obstacles.map
        MovingObstacle.reset = (Level.make g ts).obstacles
    rw [updateObstaclesN_obstacles, List.map_map]
    have h1 : ∀ o ∈ (Level.make g ts).obstacles,
        (MovingObstacle.reset ∘ MovingObstacle.updateN n) o = id o := by
      intro o ho
      show (MovingObstacle.updateN n o).reset = o
      rw [reset_updateN]
      exact make_obstacles_reset g ts o ho
    rw [List.map_congr_left h1, List.map_id]
  · rw [Level.resetObstacles]
    exact updateObstaclesN_start ..

/-! ### Scan characterization (travel-bound computation) -/

theorem scanUp_le (g : List (List Cell)) (c r : Nat) : scanUp g c r ≤ r := by
  induction r with
  | zero => exact Nat.le_refl 0
  | succ m ih =>
    rw [scanUp]
    split
    · exact Nat.le_succ_of_le ih
    · exact Nat.le_refl _

theorem scanUp_stop (g : List (List Cell)) (c r : Nat) :
    scanUp g c r = 0 ∨ cellAt g (scanUp g c r - 1) c = Cell.num 1 := by
  induction r with
  | zero => exact Or.inl rfl
  | succ m ih =>
    rw [scanUp]
    split
    · exact ih
    · rename_i hw
      right
      simpa using not_not.mp hw

theorem scanUp_path (g : List (List Cell)) (c r : Nat) :
    ∀ j, scanUp g c r ≤ j → j < r → cellAt g j c ≠ Cell.num 1 := by
  induction r with
  | zero => exact fun j _ hj => absurd hj (Nat.not_lt_zero j)
  | succ m ih =>
    intro j hle hlt
    rw [scanUp] at hle
    revert hle
    split
    · intro hle
      rcases Nat.lt_succ_iff_lt_or_eq.mp hlt with h | h
      · exact ih j hle h
      · rename_i hw
        rw [h]
        exact hw
    · intro hle
      omega

theorem scanDownAux_ge (g : List (List Cell)) (c : Nat) (fuel m : Nat) :
    m ≤ scanDownAux g c fuel m := by
  induction fuel generalizing m with
  | zero => exact Nat.le_refl m
  | succ fuel ih =>
    rw [scanDownAux]
    split
    · exact Nat.le_trans (Nat.le_succ m) (ih (m + 1))
    · exact Nat.le_refl m

theorem scanDownAux_le (g : List (List Cell)) (c : Nat) (fuel m : Nat) :
    scanDownAux g c fuel m ≤ m + fuel := by
  induction fuel generalizing m with
  | zero => exact Nat.le_refl m
  | succ fuel ih =>
    rw [scanDownAux]
    split
    · exact Nat.le_trans (ih (m + 1)) (by omega)
    · exact Nat.le_add_right m _

theorem scanDownAux_stop (g : List (List Cell)) (c : Nat) (fuel m : Nat) :
    scanDownAux g c fuel m = m + fuel ∨
      cellAt g (scanDownAux g c fuel m + 1) c = Cell.num 1 := by
  induction fuel generalizing m with
  | zero => exact Or.inl rfl
  | succ fuel ih =>
    rw [scanDownAux]
    split
    · rcases ih (m + 1) with h | h
      · exact Or.inl (by omega)
      · exact Or.inr h
    · rename_i hw
      right
      simpa using not_not.mp hw

theorem scanDownAux_path (g : List (List Cell)) (c : Nat) (fuel m : Nat) :
    ∀ j, m < j → j ≤ scanDownAux g c fuel m → cellAt g j c ≠ Cell.num 1 := by
  induction fuel generalizing m with
  | zero =>
    intro j hj1 hj2
    rw [scanDownAux] at hj2
    omega
  | succ fuel ih =>
    intro j hj1 hj2
    rw [scanDownAux] at hj2
    revert hj2
    split
    · intro hj2
      rcases Nat.lt_or_ge m.succ j with h | h
      · exact ih (m + 1) j h hj2
      · rename_i hw
        have : j = m + 1 := by omega
        rw [this]
        exact hw
    · intro hj2
      omega

theorem scanDown_spec (g : List (List Cell)) (rows c m : Nat) (hm : m < rows) :
    m ≤ scanDown g rows c m ∧ scanDown g rows c m < rows ∧
      (scanDown g rows c m + 1 = rows ∨
        cellAt g (scanDown g rows c m + 1) c = Cell.num 1) ∧
      ∀ j, m < j → j ≤ scanDown g rows c m → cellAt g j c ≠ Cell.num 1 := by
  unfold scanDown
  refine ⟨scanDownAux_ge g c _ m, ?_, ?_, scanDownAux_path g c _ m⟩
  · have := scanDownAux_le g c (rows - (m + 1)) m
    omega
  · rcases scanDownAux_stop g c (rows - (m + 1)) m with h | h
    · exact Or.inl (by omega)
    · exact Or.inr h

/-! ### Collision predicate bridging -/

theorem rectDisjointTest_false_iff (p b : Rect) :
    rectDisjointTest p b = false ↔ overlapSpec p b := by
  unfold rectDisjointTest overlapSpec
  simp only [Bool.or_eq_false_iff, decide_eq_false_iff_not, not_or, gt_iff_lt]
  tauto

/-! ### Claim theorems -/

/-- C1: an obstacle constructed with minRow ≤ initial row ≤ maxRow and a
positive tile size keeps the clamping invariant minY ≤ y ≤ maxY on its
vertical pixel center after every update() tick, for arbitrarily many
consecutive ticks. -/
theorem obstacle_clamping_invariant (col row minRow maxRow : Nat)
    (ts speed : ℚ) (hts : 0 < ts) (hlo : minRow ≤ row) (hhi : row ≤ maxRow)
    (n : Nat) :
    (MovingObstacle.updateN n
          (MovingObstacle.make col row minRow maxRow ts speed)).minY ≤
        (MovingObstacle.updateN n
          (MovingObstacle.make col row minRow maxRow ts speed)).y ∧
      (MovingObstacle.updateN n
          (MovingObstacle.make col row minRow maxRow ts speed)).y ≤
        (MovingObstacle.updateN n
          (MovingObstacle.make col row minRow maxRow ts speed)).maxY := by
  have hcast1 : ((minRow : ℚ)) ≤ (row : ℚ) := by exact_mod_cast hlo
  have hcast2 : ((row : ℚ)) ≤ (maxRow : ℚ) := by exact_mod_cast hhi
  have h1 : (minRow : ℚ) * ts ≤ (row : ℚ) * ts :=
    mul_le_mul_of_nonneg_right hcast1 hts.le
  have h2 : (row : ℚ) * ts ≤ (maxRow : ℚ) * ts :=
    mul_le_mul_of_nonneg_right hcast2 hts.le
  cases n with
  | zero =>
    simp only [MovingObstacle.updateN, MovingObstacle.make]
    constructor <;> linarith
  | succ n =>
    rw [MovingObstacle.updateN, update_minY, update_maxY, updateN_minY,
      updateN_maxY]
    have hmm : (MovingObstacle.updateN n
          (MovingObstacle.make col row minRow maxRow ts speed)).minY ≤
        (MovingObstacle.updateN n
          (MovingObstacle.make col row minRow maxRow ts speed)).maxY := by
      rw [updateN_minY, updateN_maxY]
      simp only [MovingObstacle.make]
      linarith
    have h := update_y_mem _ hmm
    rw [updateN_minY, updateN_maxY] at h
    exact h

/-- Witness for C1: a concrete obstacle (ts = 10, rows 1..3, spawn row 2,
speed 2) after 7 ticks. -/
theorem obstacle_clamping_invariant_witness :
    (0 : ℚ) < 10 ∧ 1 ≤ 2 ∧ 2 ≤ 3 ∧
      ((MovingObstacle.updateN 7 (MovingObstacle.make 2 2 1 3 10 2)).minY ≤
          (MovingObstacle.updateN 7 (MovingObstacle.make 2 2 1 3 10 2)).y ∧
        (MovingObstacle.updateN 7 (MovingObstacle.make 2 2 1 3 10 2)).y ≤
          (MovingObstacle.updateN 7 (MovingObstacle.make 2 2 1 3 10 2)).maxY) :=
  ⟨by decide, by decide, by decide,
    obstacle_clamping_invariant 2 2 1 3 10 2 (by decide) (by decide)
      (by decide) 7⟩

/-- C2: checkObstacleCollision(playerRect) is true iff the rectangle
overlaps at least one owned obstacle's current bounds (no overlap iff one
rectangle is entirely to one side of the other on either axis), and a level
whose obstacle list is empty always reports false. -/
theorem checkObstacleCollision_iff (l : Level) (p : Rect) :
    (l.checkObstacleCollision p = true ↔
      ∃ o ∈ l.obstacles, overlapSpec p o.bounds) ∧
    ∀ (g : List (List Cell)) (ts : ℚ) (s : Option (Nat × Nat)) (q : Rect),
      (Level.mk g ts [] s).checkObstacleCollision q = false := by
  constructor
  · simp only [Level.checkObstacleCollision, List.any_eq_true,
      Bool.not_eq_true', rectDisjointTest_false_iff]
  · intro g ts s q
    rfl

/-- Witness for C2: an obstacle-free level reports no collision. -/
theorem checkObstacleCollision_iff_witness :
    (Level.mk [[Cell.num 0]] 10 [] none).checkObstacleCollision
      ⟨0, 0, 1, 1⟩ = false :=
  (checkObstacleCollision_iff (Level.mk [[Cell.num 0]] 10 [] none)
      ⟨0, 0, 1, 1⟩).2 [[Cell.num 0]] 10 none ⟨0, 0, 1, 1⟩

/-- C3 counterexample: in the input grid [[2, 2]] the first Start cell in
row-major order is (0,0), but the constructed level's start field holds
(0,1) — the constructor overwrites start on every Start cell it meets, so
the LAST one wins, not the first. -/
theorem start_first_wins_counterexample :
    firstStart [[Cell.num 2, Cell.num 2]] = some (0, 0) ∧
      (Level.make [[Cell.num 2, Cell.num 2]] 10).start = some (0, 1) ∧
      (((0, 1) : Nat × Nat)) ≠ ((0, 0) : Nat × Nat) := by
  refine ⟨by decide, by decide, by decide⟩

/-- C3 (amended): for every input grid containing more than one Start cell,
the constructed level's start field records the location of the LAST Start
cell encountered in row-major scan order. -/
theorem start_last_wins (g : List (List Cell)) (ts : ℚ)
    (h : 1 < startCount g) : (Level.make g ts).start = lastStart g :=
  make_start g ts

/-- Witness for the amended C3 on the grid [[2, 2]]. -/
theorem start_last_wins_witness :
    1 < startCount [[Cell.num 2, Cell.num 2]] ∧
      (Level.make [[Cell.num 2, Cell.num 2]] 10).start =
        lastStart [[Cell.num 2, Cell.num 2]] :=
  ⟨by decide, start_last_wins [[Cell.num 2, Cell.num 2]] 10 (by decide)⟩

/-- C4 counterexample: with tile size 10 the bounds rectangle spans
(4/5) × 10 = 8 pixels per side, not (8/5) × 10 = 16 as the claim's
"center ± 0.8 ts, total 1.6 ts per side" would require. -/
theorem obstacle_extent_counterexample :
    ((MovingObstacle.make 2 2 1 3 10 2).bounds).right -
        ((MovingObstacle.make 2 2 1 3 10 2).bounds).left = (4 / 5) * 10 ∧
      ((MovingObstacle.make 2 2 1 3 10 2).bounds).right -
          ((MovingObstacle.make 2 2 1 3 10 2).bounds).left ≠ (8 / 5) * 10 := by
  norm_num [MovingObstacle.make, MovingObstacle.bounds]

/-- C4 (amended): w and h are the full extents of the rectangle, each
0.8 × ts; bounds() spans from the center minus HALF that extent to the
center plus half, so the total span is 0.8 × ts per side. -/
theorem obstacle_extent_bounds (col row minRow maxRow : Nat)
    (ts speed : ℚ) :
    (MovingObstacle.make col row minRow maxRow ts speed).w = (4 / 5) * ts ∧
    (MovingObstacle.make col row minRow maxRow ts speed).h = (4 / 5) * ts ∧
    ((MovingObstacle.make col row minRow maxRow ts speed).bounds).left =
      (MovingObstacle.make col row minRow maxRow ts speed).x -
        (MovingObstacle.make col row minRow maxRow ts speed).w / 2 ∧
    ((MovingObstacle.make col row minRow maxRow ts speed).bounds).right =
      (MovingObstacle.make col row minRow maxRow ts speed).x +
        (MovingObstacle.make col row minRow maxRow ts speed).w / 2 ∧
    ((MovingObstacle.make col row minRow maxRow ts speed).bounds).top =
      (MovingObstacle.make col row minRow maxRow ts speed).y -
        (MovingObstacle.make col row minRow maxRow ts speed).h / 2 ∧
    ((MovingObstacle.make col row minRow maxRow ts speed).bounds).bottom =
      (MovingObstacle.make col row minRow maxRow ts speed).y +
        (MovingObstacle.make col row minRow maxRow ts speed).h / 2 ∧
    ((MovingObstacle.make col row minRow maxRow ts speed).bounds).right -
      ((MovingObstacle.make col row minRow maxRow ts speed).bounds).left =
        (4 / 5) * ts ∧
    ((MovingObstacle.make col row minRow maxRow ts speed).bounds).bottom -
      ((MovingObstacle.make col row minRow maxRow ts speed).bounds).top =
        (4 / 5) * ts := by
  simp only [MovingObstacle.make, MovingObstacle.bounds]
  refine ⟨by ring, by ring, trivial, trivial, trivial, trivial, by ring,
    by ring⟩

/-- C5: after construction of a valid rectangular grid, no in-range cell of
the normalized grid holds the Start code 2 or the spawn marker "M". -/
theorem normalized_grid_clean (g : List (List Cell)) (ts : ℚ)
    (hrect : ∀ row ∈ g, row.length = (g.headD []).length) (r c : Nat)
    (hr : r < (Level.make g ts).rows) (hc : c < (Level.make g ts).cols) :
    (Level.make g ts).tileAt r c ≠ Cell.num 2 ∧
      (Level.make g ts).tileAt r c ≠ Cell.M := by
  rw [rows_make] at hr
  rw [cols_make] at hc
  rw [make_tileAt g ts r c hr hc]
  exact ⟨normalizeCell_ne_start _, normalizeCell_ne_marker _⟩

/-- Witness for C5 on the grid [[2, "M"]]. -/
theorem normalized_grid_clean_witness :
    (∀ row ∈ [[Cell.num 2, Cell.M]],
        row.length = ([[Cell.num 2, Cell.M]].headD []).length) ∧
      0 < (Level.make [[Cell.num 2, Cell.M]] 10).rows ∧
      1 < (Level.make [[Cell.num 2, Cell.M]] 10).cols ∧
      ((Level.make [[Cell.num 2, Cell.M]] 10).tileAt 0 1 ≠ Cell.num 2 ∧
        (Level.make [[Cell.num 2, Cell.M]] 10).tileAt 0 1 ≠ Cell.M) :=
  ⟨by decide, by decide, by decide,
    normalized_grid_clean [[Cell.num 2, Cell.M]] 10 (by decide) 0 1
      (by decide) (by decide)⟩

set_option maxRecDepth 8000 in
/-- C6: on the 5×5 scenario grid with an "M" marker at (2,2) and tile size
10, exactly one obstacle is created, at col 2, row 2, with scanned travel
bounds minRow = 1 and maxRow = 3, and cell (2,2) is normalized to floor
(isWall and isGoal both false there). -/
theorem spawn_scan_scenario :
    (Level.make gridC6 10).obstacles.map
        (fun o => (o.col, o.row, o.minRow, o.maxRow)) = [(2, 2, 1, 3)] ∧
      (Level.make gridC6 10).isWall 2 2 = false ∧
      (Level.make gridC6 10).isGoal 2 2 = false := by
  refine ⟨?_, ?_, ?_⟩ <;> decide

/-- C7: resetObstacles() after any number of updateObstacles() ticks
restores the constructed level exactly (in particular every obstacle's
bounds() returns to its post-construction value), and every obstacle's
direction is +1 (moving down) afterwards. -/
theorem resetObstacles_restores_spawn (g : List (List Cell)) (ts : ℚ)
    (n : Nat) :
    ((Level.make g ts).updateObstaclesN n).resetObstacles = Level.make g ts ∧
      ∀ o ∈ (((Level.make g ts).updateObstaclesN n).resetObstacles).obstacles,
        o.dir = 1 := by
  refine ⟨resetObstacles_updateObstaclesN_make g ts n, ?_⟩
  intro o ho
  simp only [Level.resetObstacles, List.mem_map] at ho
  obtain ⟨o1, _, rfl⟩ := ho
  rfl

/-- Witness for C7 on a 1×1 grid holding one marker, after 3 ticks. -/
theorem resetObstacles_restores_spawn_witness :
    ((Level.make [[Cell.M]] 10).updateObstaclesN 3).resetObstacles =
      Level.make [[Cell.M]] 10 :=
  (resetObstacles_restores_spawn [[Cell.M]] 10 3).1

/-- C8: findStart() on a constructed level always returns none, because
construction already normalized every Start cell to floor. -/
theorem findStart_always_none (g : List (List Cell)) (ts : ℚ) :
    (Level.make g ts).findStart = none := by
  unfold Level.findStart
  rw [List.find?_eq_none]
  rintro ⟨r, c⟩ hm
  rw [rows_make, cols_make] at hm
  obtain ⟨hr, hc⟩ := (mem_cellIndices ..).mp hm
  simp only [decide_eq_true_eq]
  have h := make_tileAt g ts r c hr hc
  unfold Level.tileAt at h
  rw [h]
  exact normalizeCell_ne_start _

/-- C9: a malformed level entry produces the degenerate fallback level:
2×2, all cells walls. -/
theorem malformed_entry_fallback :
    (loadEntry LevelEntry.malformed).rows = 2 ∧
      (loadEntry LevelEntry.malformed).cols = 2 ∧
      (loadEntry LevelEntry.malformed).isWall 0 0 = true ∧
      (loadEntry LevelEntry.malformed).isWall 0 1 = true ∧
      (loadEntry LevelEntry.malformed).isWall 1 0 = true ∧
      (loadEntry LevelEntry.malformed).isWall 1 1 = true := by
  refine ⟨?_, ?_, ?_, ?_, ?_, ?_⟩ <;> decide

/-- C10: overlap testing is boundary-inclusive — a player rectangle whose
edges merely touch an obstacle's bounds (closed-interval overlap on both
axes, e.g. playerRect.right exactly equal to the obstacle's left) reports a
collision, because the separating-axis rejection uses strict
inequalities. -/
theorem collision_boundary_inclusive (l : Level) (o : MovingObstacle)
    (p : Rect) (ho : o ∈ l.obstacles)
    (hx1 : p.left ≤ (o.bounds).right) (hx2 : (o.bounds).left ≤ p.right)
    (hy1 : p.top ≤ (o.bounds).bottom) (hy2 : (o.bounds).top ≤ p.bottom) :
    l.checkObstacleCollision p = true := by
  unfold Level.checkObstacleCollision
  rw [List.any_eq_true]
  refine ⟨o, ho, ?_⟩
  have hd : rectDisjointTest p o.bounds = false := by
    rw [rectDisjointTest_false_iff]
    exact ⟨not_or.mpr ⟨not_lt.mpr hx2, not_lt.mpr hx1⟩,
      not_or.mpr ⟨not_lt.mpr hy2, not_lt.mpr hy1⟩⟩
  rw [hd]
  rfl

/-- Witness for C10: a rectangle whose right edge exactly touches the
obstacle's left edge (obstacle bounds 21..29 × 21..29, player rectangle
15..21 × 20..26). -/
theorem collision_boundary_inclusive_witness :
    ((⟨15, 20, 21, 26⟩ : Rect)).right =
        ((MovingObstacle.make 2 2 1 3 10 (9 / 5)).bounds).left ∧
      (Level.mk [] 10 [MovingObstacle.make 2 2 1 3 10 (9 / 5)]
            none).checkObstacleCollision ⟨15, 20, 21, 26⟩ = true :=
  ⟨by norm_num [MovingObstacle.make, MovingObstacle.bounds],
    collision_boundary_inclusive _ _ _ (List.mem_singleton.mpr rfl)
      (by norm_num [MovingObstacle.make, MovingObstacle.bounds])
      (by norm_num [MovingObstacle.make, MovingObstacle.bounds])
      (by norm_num [MovingObstacle.make, MovingObstacle.bounds])
      (by norm_num [MovingObstacle.make, MovingObstacle.bounds])⟩

end Maze
